import Mathlib

/-!
Shallow embedding of the `timewheel` package (a circular timing wheel of
tasks) and proofs about its operations.

Modelling conventions:
* Go `time.Duration` values are `Int` nanoseconds; `Duration.Seconds`
  followed by Go's `int(...)` conversion is modelled as exact truncating
  division by `10^9` (`Int.tdiv`), which is what the float computation
  yields on all inputs of practical size.
* Go `int` arithmetic uses `Int.tdiv` / `Int.tmod` (truncating division,
  as in Go).  A Go integer division or modulus by zero, and a slice index
  out of range, panic; panicking paths are modelled by `Option`/flags.
* Go `interface{}` keys and `Job` callbacks are modelled as `Option Nat`
  (`none` is the `nil` interface value); `TaskData` payloads are opaque
  `Nat` identifiers.
* Tasks are mutable heap objects shared between the slots and the task
  record; we model the heap as an arena `List Task`, and slots / the task
  record hold arena indices, so aliasing (e.g. lazy deletion writing
  `times = 0` through the record pointer) is represented faithfully.
-/

namespace Timewheel

/-- Embedding of the Go `task` struct: `interval` (ns), `times`
(`-1` unlimited, `0` tombstone), `circle`, `key`, `job` callback id,
`taskData` payload id. -/
structure Task where
  interval : Int
  times : Int
  circle : Int
  key : Option Nat
  job : Option Nat
  taskData : Nat
  deriving Repr, DecidableEq, Inhabited

/-- Embedding of the Go `TimeWheel` struct.  `slots` is the ring of task
lists (arena indices), `arena` the heap of task objects, `taskRecord` the
key-to-task map (association list with at most one entry per key). -/
structure TimeWheel where
  interval : Int
  slotNum : Int
  currentPos : Int
  slots : List (List Nat)
  arena : List Task
  taskRecord : List (Option Nat × Nat)
  deriving Repr, DecidableEq, Inhabited

/-- Nanoseconds per second (`time.Second`). -/
def nsPerSecond : Int := 1000000000

/-- Go's `int(d.Seconds())`: whole seconds of a duration, truncated toward
zero. -/
def secs (d : Int) : Int := d.tdiv nsPerSecond

/-- Lookup in the task record (Go map read `tw.taskRecord[key]`). -/
def recLookup (r : List (Option Nat × Nat)) (k : Option Nat) : Option Nat :=
  (r.find? (fun p => p.1 = k)).map (fun p => p.2)

/-- Insertion into the task record (Go map write
`tw.taskRecord[key] = task`). -/
def recInsert (r : List (Option Nat × Nat)) (k : Option Nat) (v : Nat) :
    List (Option Nat × Nat) :=
  (k, v) :: r.filter (fun p => ¬ p.1 = k)

/-- Deletion from the task record (Go `delete(tw.taskRecord, key)`). -/
def recDelete (r : List (Option Nat × Nat)) (k : Option Nat) :
    List (Option Nat × Nat) :=
  r.filter (fun p => ¬ p.1 = k)

/-- Embedding of `New(interval, slotNum)` together with `init()`: returns
`none` (Go `nil`) on non-positive arguments, otherwise the wheel with
`slotNum` freshly created empty slots, cursor `0` and an empty record. -/
def New (interval : Int) (slotNum : Int) : Option TimeWheel :=
  if interval ≤ 0 ∨ slotNum ≤ 0 then none
  else some
    { interval := interval
      slotNum := slotNum
      currentPos := 0
      slots := List.replicate slotNum.toNat []
      arena := []
      taskRecord := [] }

/-- Embedding of `getPositionAndCircle(d)`, returning `(pos, circle)`.
`none` models the Go run-time panic of an integer division / modulus by
zero, which happens whenever `int(tw.interval.Seconds()) == 0`
(sub-second tick interval) or `tw.slotNum == 0`. -/
def getPositionAndCircle (tw : TimeWheel) (d : Int) : Option (Int × Int) :=
  let delaySeconds := secs d
  let intervalSeconds := secs tw.interval
  if intervalSeconds = 0 ∨ tw.slotNum = 0 then none
  else some
    ((tw.currentPos + delaySeconds.tdiv intervalSeconds).tmod tw.slotNum,
     (delaySeconds.tdiv intervalSeconds).tdiv tw.slotNum)

/-- Embedding of the control loop's `addTask(task)` acting on the task
stored at arena index `tid`: drop tombstones, compute position and circle,
store the circle, append the task to the target slot, register it in the
record.  `none` models a panic (division by zero inside
`getPositionAndCircle`, or a slot index out of range). -/
def addTask (tw : TimeWheel) (tid : Nat) : Option TimeWheel :=
  let t := tw.arena.getD tid default
  if t.times = 0 then some tw
  else
    match getPositionAndCircle tw t.interval with
    | none => none
    | some pc =>
      let pos := pc.1
      let circle := pc.2
      if pos < 0 ∨ tw.slots.length ≤ pos.toNat then none
      else
        let arena' := tw.arena.set tid { t with circle := circle }
        some
          { tw with
            arena := arena'
            slots := tw.slots.set pos.toNat
              ((tw.slots.getD pos.toNat []) ++ [tid])
            taskRecord := recInsert tw.taskRecord t.key tid }

/-- Hand-off of a freshly validated task from `AddTask` through the add
channel into the control loop: the new object is allocated in the arena
and `addTask` runs on it. -/
def processAdd (tw : TimeWheel) (t : Task) : Option TimeWheel :=
  addTask { tw with arena := tw.arena ++ [t] } tw.arena.length

/-- Embedding of the public `AddTask(interval, times, key, data, job)`.
The first component is the receiver's state after the call (`AddTask`
itself never mutates the wheel; on success the constructed task is sent to
the control loop, which is modelled separately by `processAdd`). -/
def AddTask (tw : TimeWheel) (interval : Int) (times : Int)
    (key : Option Nat) (data : Nat) (job : Option Nat) :
    TimeWheel × Except String Task :=
  if interval ≤ 0 ∨ key = none ∨ job = none ∨ times < -1 ∨ times = 0 then
    (tw, Except.error "illegal task params")
  else if (recLookup tw.taskRecord key).isSome then
    (tw, Except.error "duplicate task key")
  else
    (tw, Except.ok
      { interval := interval, times := times, circle := 0,
        key := key, job := job, taskData := data })

/-- Embedding of `RemoveTask(key)`: `nil` key is a no-op success; a missing
key is an error; otherwise lazy deletion sets the task's `times` to `0`
through the shared task object and deletes the record entry under
`task.key`.  The second component is the returned error (`none` = Go
`nil`). -/
def RemoveTask (tw : TimeWheel) (key : Option Nat) :
    TimeWheel × Option String :=
  if key = none then (tw, none)
  else
    match recLookup tw.taskRecord key with
    | none => (tw, some "task not exists, please check you task key")
    | some tid =>
      let t := tw.arena.getD tid default
      ({ tw with
          arena := tw.arena.set tid { t with times := 0 }
          taskRecord := recDelete tw.taskRecord t.key }, none)

/-- Embedding of `UpdateTask(key, interval, taskData)`: `nil` key is an
error; a missing key is an error; otherwise the shared task object's
`taskData` and `interval` fields are overwritten in place. -/
def UpdateTask (tw : TimeWheel) (key : Option Nat) (interval : Int)
    (data : Nat) : TimeWheel × Option String :=
  if key = none then (tw, some "illegal key, please try again")
  else
    match recLookup tw.taskRecord key with
    | none => (tw, some "task not exists, please check you task key")
    | some tid =>
      let t := tw.arena.getD tid default
      ({ tw with
          arena := tw.arena.set tid
            { t with taskData := data, interval := interval } }, none)

/-- Configuration of the loop inside `scanAddRunTask`: the wheel, the
index of the slot being scanned (`tw.slots[scanPos]` is the Go list `l`),
the number `kept` of already processed elements left in place (the loop's
`item` is element `kept` of the current slot contents), the callbacks
dispatched so far (`(task id, job, payload)` triples, in dispatch order),
whether the captured `next` pointer was `nil` (`finished`), and whether a
panic occurred. -/
structure ScanState where
  tw : TimeWheel
  scanPos : Nat
  kept : Nat
  fires : List (Nat × Option Nat × Nat)
  finished : Bool
  panicked : Bool
  deriving Repr, DecidableEq, Inhabited

/-- The loop in `scanAddRunTask` has terminated: the captured `next` was
`nil`, a panic unwound it, or `item` ran past the end of the list. -/
def scanDone (c : ScanState) : Prop :=
  c.finished = true ∨ c.panicked = true ∨
    (c.tw.slots.getD c.scanPos []).length ≤ c.kept

instance (c : ScanState) : Decidable (scanDone c) := by
  unfold scanDone; infer_instance

/-- One iteration of the loop in `scanAddRunTask(l)`.  The three branches
are: tombstone (`times == 0`): unlink the element and delete the record
entry; `circle > 0`: decrement the circle and move on; due: dispatch the
job, unlink the element, then either terminate the task
(`times == 1`) or decrement `times` (unlimited stays `-1`) and re-admit it
through `addTask` — which may append it to the very slot being scanned,
where the iteration reaches it again unless the captured `next` was
already `nil`. -/
def scanStep (c : ScanState) : ScanState :=
  if scanDone c then c
  else
    let l := c.tw.slots.getD c.scanPos []
    let tid := l.getD c.kept 0
    let t := c.tw.arena.getD tid default
    if t.times = 0 then
      { c with tw :=
          { c.tw with
            slots := c.tw.slots.set c.scanPos (l.eraseIdx c.kept)
            taskRecord := recDelete c.tw.taskRecord t.key } }
    else if 0 < t.circle then
      { c with
        tw := { c.tw with
          arena := c.tw.arena.set tid { t with circle := t.circle - 1 } }
        kept := c.kept + 1 }
    else
      let wasLast := l.length ≤ c.kept + 1
      let fires' := c.fires ++ [(tid, t.job, t.taskData)]
      let tw1 := { c.tw with
        slots := c.tw.slots.set c.scanPos (l.eraseIdx c.kept) }
      if t.times = 1 then
        { c with
          tw := { tw1 with
            arena := tw1.arena.set tid { t with times := 0 }
            taskRecord := recDelete tw1.taskRecord t.key }
          fires := fires'
          finished := wasLast }
      else
        let t' := if 0 < t.times then { t with times := t.times - 1 } else t
        let tw2 := { tw1 with arena := tw1.arena.set tid t' }
        match addTask tw2 tid with
        | none => { c with tw := tw2, fires := fires', panicked := true }
        | some tw3 => { c with tw := tw3, fires := fires', finished := wasLast }

/-- Iterate `scanStep` up to `fuel` times (`scanStep` is the identity once
the loop has terminated; the Go loop can genuinely run forever, e.g. two
unlimited tasks whose delay rounds to zero steps re-admitted into the slot
being scanned, so the embedding is fuelled). -/
def scanRun : Nat → ScanState → ScanState
  | 0, c => c
  | n + 1, c => scanRun n (scanStep c)

/-- Embedding of `tickHandler()`: scan the slot at the cursor via
`scanAddRunTask`, then advance the cursor (wrap from `slotNum - 1` to
`0`).  Returns the new wheel and the dispatched callbacks, or `none` if
the cursor indexes outside the slot array, the scan panicked, or `fuel`
did not suffice to finish the scan. -/
def tickHandler (fuel : Nat) (tw : TimeWheel) :
    Option (TimeWheel × List (Nat × Option Nat × Nat)) :=
  if tw.currentPos < 0 ∨ tw.slots.length ≤ tw.currentPos.toNat then none
  else
    let c := scanRun fuel
      { tw := tw, scanPos := tw.currentPos.toNat, kept := 0,
        fires := [], finished := false, panicked := false }
    if c.panicked = true then none
    else if scanDone c then
      some
        ({ c.tw with
            currentPos :=
              if c.tw.currentPos = c.tw.slotNum - 1 then 0
              else c.tw.currentPos + 1 }, c.fires)
    else none

/-- Run `n` consecutive ticks, each with the given scan fuel, collecting
all dispatched callbacks in order. -/
def runTicks : Nat → Nat → TimeWheel →
    Option (TimeWheel × List (Nat × Option Nat × Nat))
  | 0, _, tw => some (tw, [])
  | n + 1, fuel, tw =>
    match tickHandler fuel tw with
    | none => none
    | some p =>
      match runTicks n fuel p.1 with
      | none => none
      | some q => some (q.1, p.2 ++ q.2)

/-- The `times` field of the task at arena index `tid`. -/
def timesOf (tw : TimeWheel) (tid : Nat) : Int :=
  (tw.arena.getD tid default).times

/-- The delay of a task expressed in ticks, as `getPositionAndCircle`
computes it: whole seconds of the delay divided by whole seconds of the
wheel interval (both Go `int` truncations). -/
def delaySteps (tw : TimeWheel) (d : Int) : Int :=
  (secs d).tdiv (secs tw.interval)

/-- The slot index `getPositionAndCircle` assigns to a task with delay
`d`: `(cursor + delaySteps) tmod slotNum`. -/
def targetPos (tw : TimeWheel) (d : Int) : Int :=
  (tw.currentPos + delaySteps tw d).tmod tw.slotNum

/-- Sample wheel used to witness the operation theorems: a ring of two
slots holding one recorded task under key `5` at arena index `0`. -/
def sampleWheel : TimeWheel :=
  { interval := 1000000000, slotNum := 2, currentPos := 0,
    slots := [[0], []],
    arena := [{ interval := 1000000000, times := 1, circle := 0,
                key := some 5, job := some 7, taskData := 9 }],
    taskRecord := [(some 5, 0)] }

/-- Scan configuration holding one tombstoned task (`times = 0`) at the
head of slot `0`, used to witness the scan-step theorems. -/
def sampleScanTombstone : ScanState :=
  { tw :=
      { interval := 1000000000
        slotNum := 2
        currentPos := 0
        slots := [[0], []]
        arena := [{ interval := 1000000000, times := 0, circle := 0,
                    key := some 5, job := some 7, taskData := 9 }]
        taskRecord := [] }
    scanPos := 0
    kept := 0
    fires := []
    finished := false
    panicked := false }

/-- Scan configuration holding one waiting task (`circle = 2`) at the
head of slot `0`, used to witness the scan-step theorems. -/
def sampleScanRotating : ScanState :=
  { tw :=
      { interval := 1000000000
        slotNum := 2
        currentPos := 0
        slots := [[0], []]
        arena := [{ interval := 1000000000, times := 1, circle := 2,
                    key := some 5, job := some 7, taskData := 9 }]
        taskRecord := [(some 5, 0)] }
    scanPos := 0
    kept := 0
    fires := []
    finished := false
    panicked := false }

/-- Scan configuration holding one due repeating task (`times = 3`,
`circle = 0`) at the head of slot `0`, used to witness the firing
theorem. -/
def sampleScanDue : ScanState :=
  { tw :=
      { interval := 1000000000
        slotNum := 2
        currentPos := 0
        slots := [[0], []]
        arena := [{ interval := 1000000000, times := 3, circle := 0,
                    key := some 5, job := some 7, taskData := 9 }]
        taskRecord := [(some 5, 0)] }
    scanPos := 0
    kept := 0
    fires := []
    finished := false
    panicked := false }

theorem getD_set_self {α : Type} (l : List α) {i : Nat} (v d : α)
    (h : i < l.length) : (l.set i v).getD i d = v := by
  simp [List.getD_eq_getElem?_getD, List.getElem?_set_self h]

theorem getD_set_ne {α : Type} (l : List α) {i j : Nat} (v d : α)
    (h : i ≠ j) : (l.set i v).getD j d = l.getD j d := by
  simp [List.getD_eq_getElem?_getD, List.getElem?_set_ne h]

theorem recLookup_recInsert_self (r : List (Option Nat × Nat))
    (k : Option Nat) (v : Nat) : recLookup (recInsert r k v) k = some v := by
  simp [recLookup, recInsert, List.find?_cons]

theorem recLookup_recDelete_self (r : List (Option Nat × Nat))
    (k : Option Nat) : recLookup (recDelete r k) k = none := by
  simp [recLookup, recDelete, List.find?_eq_none, List.mem_filter]

/-- Claim C10: `UpdateTask` with a `nil` key fails with the illegal-key
error and changes nothing, whereas `RemoveTask` with a `nil` key is a
no-op success. -/
theorem updateTask_nil_key_errs_removeTask_nil_key_noop
    (tw : TimeWheel) (interval : Int) (data : Nat) :
    UpdateTask tw none interval data =
      (tw, some "illegal key, please try again")
    ∧ RemoveTask tw none = (tw, none) := by
  constructor <;> rfl

/-- Claim C9: `New` yields no wheel exactly when `interval ≤ 0` or
`slotNum ≤ 0`; on positive arguments the wheel has `slotNum` empty slots,
an empty task record, an empty arena and the cursor at slot `0`. -/
theorem New_spec (interval slotNum : Int) :
    (New interval slotNum = none ↔ interval ≤ 0 ∨ slotNum ≤ 0)
    ∧ (∀ tw, New interval slotNum = some tw →
        tw.interval = interval ∧ tw.slotNum = slotNum ∧ tw.currentPos = 0
        ∧ tw.slots.length = slotNum.toNat
        ∧ (∀ l ∈ tw.slots, l = ([] : List Nat))
        ∧ tw.taskRecord = [] ∧ tw.arena = []) := by
  unfold New
  by_cases h : interval ≤ 0 ∨ slotNum ≤ 0
  · simp [h]
  · simp only [h, if_false, iff_false]
    refine ⟨by simp, ?_⟩
    rintro tw htw
    injection htw with htw
    subst htw
    refine ⟨rfl, rfl, rfl, by simp, ?_, rfl, rfl⟩
    intro l hl
    exact List.eq_of_mem_replicate hl

/-- Witness for `New_spec` at `interval = 10^9`, `slotNum = 10`. -/
theorem New_spec_witness :
    ((New 1000000000 10).getD default).slots.length = 10 := by
  have h := (New_spec 1000000000 10).2 ((New 1000000000 10).getD default) rfl
  exact h.2.2.2.1

/-- Claim C7: `AddTask` leaves the wheel untouched on every path, fails
with the illegal-params error exactly on a non-positive interval, `nil`
key, `nil` callback, `times = 0` or `times < -1`, fails with the
duplicate-key error when the parameters are legal but the key is already
recorded, succeeds otherwise, and errs exactly when the parameters are
illegal or the key is a duplicate. -/
theorem AddTask_spec (tw : TimeWheel) (interval times : Int)
    (key : Option Nat) (data : Nat) (job : Option Nat) :
    (AddTask tw interval times key data job).1 = tw
    ∧ ((interval ≤ 0 ∨ key = none ∨ job = none ∨ times < -1 ∨ times = 0) →
        (AddTask tw interval times key data job).2 =
          Except.error "illegal task params")
    ∧ (¬ (interval ≤ 0 ∨ key = none ∨ job = none ∨ times < -1 ∨ times = 0) →
        (recLookup tw.taskRecord key).isSome = true →
        (AddTask tw interval times key data job).2 =
          Except.error "duplicate task key")
    ∧ (¬ (interval ≤ 0 ∨ key = none ∨ job = none ∨ times < -1 ∨ times = 0) →
        (recLookup tw.taskRecord key).isSome = false →
        (AddTask tw interval times key data job).2 =
          Except.ok { interval := interval, times := times, circle := 0,
                      key := key, job := job, taskData := data })
    ∧ ((AddTask tw interval times key data job).2.isOk = false ↔
        ((interval ≤ 0 ∨ key = none ∨ job = none ∨ times < -1 ∨ times = 0)
          ∨ (recLookup tw.taskRecord key).isSome = true)) := by
  unfold AddTask
  by_cases h : interval ≤ 0 ∨ key = none ∨ job = none ∨ times < -1 ∨ times = 0
  · simp [h, Except.isOk, Except.toBool]
  · by_cases hdup : (recLookup tw.taskRecord key).isSome = true
    · simp [h, hdup, Except.isOk, Except.toBool]
    · simp [h, hdup, Except.isOk, Except.toBool]

/-- Witness for `AddTask_spec`: on a fresh wheel, legal parameters with an
unused key are accepted. -/
theorem AddTask_spec_witness :
    (AddTask ((New 1000000000 10).getD default) 25000000000 1
      (some 1) 9 (some 7)).2 =
      Except.ok { interval := 25000000000, times := 1, circle := 0,
                  key := some 1, job := some 7, taskData := 9 } := by
  have h := AddTask_spec ((New 1000000000 10).getD default)
    25000000000 1 (some 1) 9 (some 7)
  exact h.2.2.2.1 (by decide) (by decide)

/-- Setting a task's `times` to `0` at index `tid` makes `times` at `tid`
read back as `0` (also when `tid` is out of range, since the default task
has `times = 0`). -/
theorem times_getD_set_times_zero (l : List Task) (tid : Nat) (t : Task) :
    ((l.set tid { t with times := 0 }).getD tid default).times = 0 := by
  rw [List.getD_eq_getElem?_getD, List.getElem?_set]
  by_cases h : tid < l.length
  · simp [h]
  · simp only [h, if_false, if_true, ite_self, Option.getD_none]
    decide

/-- Claim C6: `RemoveTask` is a no-op success on a `nil` key, a not-found
error without state change on an absent key, and otherwise lazily deletes:
the found task's `times` becomes `0`, its key leaves the record, and the
slots (hence the physical entry) are untouched. -/
theorem RemoveTask_spec (tw : TimeWheel) (k : Nat) :
    RemoveTask tw none = (tw, none)
    ∧ (recLookup tw.taskRecord (some k) = none →
        RemoveTask tw (some k) =
          (tw, some "task not exists, please check you task key"))
    ∧ (∀ tid, recLookup tw.taskRecord (some k) = some tid →
        (tw.arena.getD tid default).key = some k →
        (RemoveTask tw (some k)).2 = none
        ∧ (RemoveTask tw (some k)).1.slots = tw.slots
        ∧ (RemoveTask tw (some k)).1.currentPos = tw.currentPos
        ∧ timesOf (RemoveTask tw (some k)).1 tid = 0
        ∧ recLookup (RemoveTask tw (some k)).1.taskRecord (some k) = none
        ∧ (∀ j, j ≠ tid →
            (RemoveTask tw (some k)).1.arena.getD j default =
              tw.arena.getD j default)
        ∧ (tid < tw.arena.length →
            (RemoveTask tw (some k)).1.arena.getD tid default =
              { tw.arena.getD tid default with times := 0 })) := by
  refine ⟨rfl, ?_, ?_⟩
  · intro h
    unfold RemoveTask
    simp [h]
  · intro tid h hkey
    have e : RemoveTask tw (some k) =
        ({ tw with
            arena := tw.arena.set tid
              { tw.arena.getD tid default with times := 0 }
            taskRecord := recDelete tw.taskRecord
              (tw.arena.getD tid default).key }, none) := by
      unfold RemoveTask
      simp [h]
    rw [e]
    refine ⟨rfl, rfl, rfl, ?_, ?_, ?_, ?_⟩
    · exact times_getD_set_times_zero tw.arena tid _
    · rw [show (tw.arena.getD tid default).key = some k from hkey]
      exact recLookup_recDelete_self _ _
    · intro j hj
      exact getD_set_ne tw.arena _ _ (fun hh => hj hh.symm)
    · intro hlt
      exact getD_set_self tw.arena _ _ hlt

/-- Witness for `RemoveTask_spec` on `sampleWheel`: removal of key `5`
succeeds, tombstones arena task `0`, empties the record, and leaves the
task physically in slot `0`. -/
theorem RemoveTask_spec_witness :
    (RemoveTask sampleWheel (some 5)).2 = none
    ∧ timesOf (RemoveTask sampleWheel (some 5)).1 0 = 0
    ∧ recLookup (RemoveTask sampleWheel (some 5)).1.taskRecord (some 5) =
        none
    ∧ (RemoveTask sampleWheel (some 5)).1.slots = sampleWheel.slots := by
  have h := (RemoveTask_spec sampleWheel 5).2.2 0 rfl rfl
  exact ⟨h.1, h.2.2.2.1, h.2.2.2.2.1, h.2.1⟩

/-- Claim C8: `UpdateTask` on an absent (non-`nil`) key is a not-found
error without state change; on a present key it overwrites only the
task's `interval` and `taskData` fields in place, leaving its `times`,
`circle` and `key`, every other task, the slots, the record and the rest
of the wheel unchanged. -/
theorem UpdateTask_spec (tw : TimeWheel) (k : Nat) (interval : Int)
    (data : Nat) :
    (recLookup tw.taskRecord (some k) = none →
      UpdateTask tw (some k) interval data =
        (tw, some "task not exists, please check you task key"))
    ∧ (∀ tid, recLookup tw.taskRecord (some k) = some tid →
        tid < tw.arena.length →
        (UpdateTask tw (some k) interval data).2 = none
        ∧ (UpdateTask tw (some k) interval data).1.slots = tw.slots
        ∧ (UpdateTask tw (some k) interval data).1.currentPos =
            tw.currentPos
        ∧ (UpdateTask tw (some k) interval data).1.slotNum = tw.slotNum
        ∧ (UpdateTask tw (some k) interval data).1.interval = tw.interval
        ∧ (UpdateTask tw (some k) interval data).1.taskRecord =
            tw.taskRecord
        ∧ (∀ j, j ≠ tid →
            (UpdateTask tw (some k) interval data).1.arena.getD j default =
              tw.arena.getD j default)
        ∧ (UpdateTask tw (some k) interval data).1.arena.getD tid default =
            { tw.arena.getD tid default with
                interval := interval, taskData := data }) := by
  refine ⟨?_, ?_⟩
  · intro h
    unfold UpdateTask
    simp [h]
  · intro tid h hlt
    have e : UpdateTask tw (some k) interval data =
        ({ tw with
            arena := tw.arena.set tid
              { tw.arena.getD tid default with
                  taskData := data, interval := interval } }, none) := by
      unfold UpdateTask
      simp [h]
    rw [e]
    refine ⟨rfl, rfl, rfl, rfl, rfl, rfl, ?_, ?_⟩
    · intro j hj
      exact getD_set_ne tw.arena _ _ (fun hh => hj hh.symm)
    · exact getD_set_self tw.arena _ _ hlt

/-- Witness for `UpdateTask_spec` on `sampleWheel`: updating key `5`
succeeds and rewrites exactly the task's `interval` and payload. -/
theorem UpdateTask_spec_witness :
    (UpdateTask sampleWheel (some 5) 7000000000 42).2 = none
    ∧ (UpdateTask sampleWheel (some 5) 7000000000 42).1.arena.getD 0
        default =
      { interval := 7000000000, times := 1, circle := 0,
        key := some 5, job := some 7, taskData := 42 }
    ∧ (UpdateTask sampleWheel (some 5) 7000000000 42).1.slots =
        sampleWheel.slots := by
  have h := (UpdateTask_spec sampleWheel 5 7000000000 42).2 0 rfl
    (by decide)
  exact ⟨h.1, h.2.2.2.2.2.2.2, h.2.1⟩

theorem getD_append_self {α : Type} (l : List α) (t d : α) :
    (l ++ [t]).getD l.length d = t := by
  rw [List.getD_eq_getElem?_getD, List.getElem?_append]
  simp

/-- Characterisation of the control loop's `addTask` on a non-tombstoned
task, for a wheel whose interval is at least one whole second: the task's
`circle` is set to `delaySteps tdiv slotNum`, the task id is appended to
the end of slot `targetPos`, and the task is registered in the record
under its key; nothing else changes. -/
theorem addTask_spec (tw : TimeWheel) (tid : Nat)
    (hlen : tw.slots.length = tw.slotNum.toNat)
    (hS : 0 < tw.slotNum)
    (hc : 0 ≤ tw.currentPos)
    (hI : 1 ≤ secs tw.interval)
    (ht : ¬ (tw.arena.getD tid default).times = 0)
    (hd : 0 ≤ (tw.arena.getD tid default).interval) :
    0 ≤ targetPos tw (tw.arena.getD tid default).interval
    ∧ targetPos tw (tw.arena.getD tid default).interval < tw.slotNum
    ∧ addTask tw tid = some
        { tw with
          arena := tw.arena.set tid
            { tw.arena.getD tid default with
                circle := (delaySteps tw
                  (tw.arena.getD tid default).interval).tdiv tw.slotNum }
          slots := tw.slots.set
            (targetPos tw (tw.arena.getD tid default).interval).toNat
            ((tw.slots.getD
              (targetPos tw (tw.arena.getD tid default).interval).toNat [])
              ++ [tid])
          taskRecord := recInsert tw.taskRecord
            (tw.arena.getD tid default).key tid } := by
  have hd0 : 0 ≤ secs (tw.arena.getD tid default).interval :=
    Int.tdiv_nonneg hd (by decide)
  have hI0 : 0 ≤ secs tw.interval := le_trans (by decide) hI
  have hsteps : 0 ≤ delaySteps tw (tw.arena.getD tid default).interval :=
    Int.tdiv_nonneg hd0 hI0
  have hpos0 : 0 ≤ targetPos tw (tw.arena.getD tid default).interval :=
    Int.tmod_nonneg _ (add_nonneg hc hsteps)
  have hposlt : targetPos tw (tw.arena.getD tid default).interval <
      tw.slotNum := Int.tmod_lt_of_pos _ hS
  have hptoNat :
      (targetPos tw (tw.arena.getD tid default).interval).toNat <
        tw.slots.length := by
    rw [hlen]
    exact (Int.toNat_lt_toNat hS).2 hposlt
  have hgp : getPositionAndCircle tw (tw.arena.getD tid default).interval =
      some (targetPos tw (tw.arena.getD tid default).interval,
        (delaySteps tw (tw.arena.getD tid default).interval).tdiv
          tw.slotNum) := by
    have hcond : ¬ (secs tw.interval = 0 ∨ tw.slotNum = 0) := by
      push_neg
      exact ⟨by omega, by omega⟩
    simp only [getPositionAndCircle]
    rw [if_neg hcond]
    rfl
  refine ⟨hpos0, hposlt, ?_⟩
  simp only [addTask]
  rw [if_neg ht, hgp]
  have hguard : ¬ (targetPos tw (tw.arena.getD tid default).interval < 0 ∨
      tw.slots.length ≤
        (targetPos tw (tw.arena.getD tid default).interval).toNat) := by
    push_neg
    exact ⟨hpos0, hptoNat⟩
  exact if_neg hguard

/-- Claim C1 (amended): on a wheel whose interval truncates to at least
one whole second, an admitted task with non-negative delay `d` is placed
by the add path with `delaySteps = ⌊d in s⌋ tdiv ⌊interval in s⌋` (whole
seconds, not `⌊d / interval⌋`): its rotation count becomes
`delaySteps tdiv slotNum`, it is appended to the end of slot
`(cursor + delaySteps) tmod slotNum`, and it is registered in the record
under its key. -/
theorem admitted_task_placement (tw : TimeWheel) (t : Task)
    (hlen : tw.slots.length = tw.slotNum.toNat)
    (hS : 0 < tw.slotNum)
    (hc : 0 ≤ tw.currentPos)
    (hI : 1 ≤ secs tw.interval)
    (ht : ¬ t.times = 0)
    (hd : 0 ≤ t.interval) :
    0 ≤ targetPos tw t.interval
    ∧ targetPos tw t.interval < tw.slotNum
    ∧ ∃ tw', processAdd tw t = some tw'
      ∧ (tw'.arena.getD tw.arena.length default).circle =
          (delaySteps tw t.interval).tdiv tw.slotNum
      ∧ tw'.slots.getD (targetPos tw t.interval).toNat [] =
          tw.slots.getD (targetPos tw t.interval).toNat []
            ++ [tw.arena.length]
      ∧ (∀ j, j ≠ (targetPos tw t.interval).toNat →
          tw'.slots.getD j [] = tw.slots.getD j [])
      ∧ recLookup tw'.taskRecord t.key = some tw.arena.length
      ∧ (tw'.arena.getD tw.arena.length default).times = t.times
      ∧ (tw'.arena.getD tw.arena.length default).interval = t.interval
      ∧ (tw'.arena.getD tw.arena.length default).key = t.key
      ∧ tw'.currentPos = tw.currentPos := by
  have hgetD : ((tw.arena ++ [t]).getD tw.arena.length default) = t :=
    getD_append_self tw.arena t default
  have h := addTask_spec { tw with arena := tw.arena ++ [t] }
    tw.arena.length hlen hS hc hI
    (by rw [show ({ tw with arena := tw.arena ++ [t] } :
        TimeWheel).arena.getD tw.arena.length default = t from hgetD]
        exact ht)
    (by rw [show ({ tw with arena := tw.arena ++ [t] } :
        TimeWheel).arena.getD tw.arena.length default = t from hgetD]
        exact hd)
  rw [show ({ tw with arena := tw.arena ++ [t] } :
      TimeWheel).arena.getD tw.arena.length default = t from hgetD] at h
  obtain ⟨h0, h1, h2⟩ := h
  have hptoNat : (targetPos tw t.interval).toNat < tw.slots.length := by
    rw [hlen]
    exact (Int.toNat_lt_toNat hS).2 h1
  have hlenA : tw.arena.length < (tw.arena ++ [t]).length := by simp
  refine ⟨h0, h1, _, h2, ?_, ?_, ?_, ?_, ?_, ?_, ?_, rfl⟩
  · rw [getD_set_self _ _ _ hlenA]
    rfl
  · exact getD_set_self tw.slots _ _ hptoNat
  · intro j hj
    exact getD_set_ne tw.slots _ _ (fun hh => hj hh.symm)
  · exact recLookup_recInsert_self _ _ _
  · rw [getD_set_self _ _ _ hlenA]
  · rw [getD_set_self _ _ _ hlenA]
  · rw [getD_set_self _ _ _ hlenA]

/-- Witness for `admitted_task_placement`: a task with delay 3 s and
`times = 2` admitted on `sampleWheel` (interval 1 s, 2 slots, cursor 0)
lands at the end of slot `(0 + 3) tmod 2 = 1` with rotation count
`3 tdiv 2 = 1` and is registered under its key. -/
theorem admitted_task_placement_witness :
    (0 : Int) ≤ 1 ∧ (1 : Int) < 2
    ∧ ∃ tw', processAdd sampleWheel
        { interval := 3000000000, times := 2, circle := 0,
          key := some 8, job := some 4, taskData := 11 } = some tw'
      ∧ (tw'.arena.getD 1 default).circle = 1
      ∧ tw'.slots.getD 1 [] = [1]
      ∧ (∀ j, j ≠ 1 → tw'.slots.getD j [] = sampleWheel.slots.getD j [])
      ∧ recLookup tw'.taskRecord (some 8) = some 1
      ∧ (tw'.arena.getD 1 default).times = 2
      ∧ (tw'.arena.getD 1 default).interval = 3000000000
      ∧ (tw'.arena.getD 1 default).key = some 8
      ∧ tw'.currentPos = 0 :=
  admitted_task_placement sampleWheel
    { interval := 3000000000, times := 2, circle := 0,
      key := some 8, job := some 4, taskData := 11 }
    rfl (by decide) (by decide) (by decide) (by decide) (by decide)

/-- Counterexample to claim C1 as stated: on a wheel with tick interval
`I = 1.5` s and `S = 10` slots at cursor `0`, an accepted task with delay
`d = 3` s would, per the claim, be appended to slot
`(0 + ⌊d / I⌋) mod S = 2`; the code instead truncates both durations to
whole seconds first (`int(3.0) / int(1.5) = 3 / 1 = 3`) and appends it to
slot `3`, leaving slot `2` empty. -/
theorem admitted_task_placement_floor_cex :
    (Int.tdiv 3000000000 1500000000).tmod 10 = 2
    ∧ (New 1500000000 10).isSome = true
    ∧ (processAdd ((New 1500000000 10).getD default)
        { interval := 3000000000, times := 1, circle := 0,
          key := some 1, job := some 7, taskData := 9 }).isSome = true
    ∧ ((processAdd ((New 1500000000 10).getD default)
        { interval := 3000000000, times := 1, circle := 0,
          key := some 1, job := some 7, taskData := 9 }).getD
          default).slots.getD 2 [] = []
    ∧ ((processAdd ((New 1500000000 10).getD default)
        { interval := 3000000000, times := 1, circle := 0,
          key := some 1, job := some 7, taskData := 9 }).getD
          default).slots.getD 3 [] = [0]
    ∧ recLookup ((processAdd ((New 1500000000 10).getD default)
        { interval := 3000000000, times := 1, circle := 0,
          key := some 1, job := some 7, taskData := 9 }).getD
          default).taskRecord (some 1) = some 0 := by
  decide

/-- Claim C2 fails on the code (code bug): `New` accepts any positive
interval, e.g. 0.5 s, and `AddTask` accepts a legal task for such a
wheel, yet processing the admission divides by
`int(interval.Seconds()) = 0` inside `getPositionAndCircle` — a run-time
panic (`processAdd = none` in the embedding) instead of an error result. -/
theorem subsecond_interval_admission_panics :
    (New 500000000 16).isSome = true
    ∧ (AddTask ((New 500000000 16).getD default) 2000000000 1
        (some 1) 0 (some 1)).2 =
      Except.ok { interval := 2000000000, times := 1, circle := 0,
                  key := some 1, job := some 1, taskData := 0 }
    ∧ processAdd ((New 500000000 16).getD default)
        { interval := 2000000000, times := 1, circle := 0,
          key := some 1, job := some 1, taskData := 0 } = none :=
  ⟨rfl, rfl, rfl⟩

theorem addTask_preserves {tw tw' : TimeWheel} {tid : Nat}
    (h : addTask tw tid = some tw') :
    tw'.currentPos = tw.currentPos ∧ tw'.slotNum = tw.slotNum
    ∧ tw'.interval = tw.interval ∧ tw'.slots.length = tw.slots.length
    ∧ tw'.arena.length = tw.arena.length := by
  simp only [addTask] at h
  split at h
  · injection h with h
    subst h
    exact ⟨rfl, rfl, rfl, rfl, rfl⟩
  · split at h
    · simp at h
    · split at h
      · simp at h
      · injection h with h
        subst h
        exact ⟨rfl, rfl, rfl, by simp, by simp⟩

theorem scanStep_preserves (c : ScanState) :
    (scanStep c).tw.currentPos = c.tw.currentPos
    ∧ (scanStep c).tw.slotNum = c.tw.slotNum
    ∧ (scanStep c).tw.interval = c.tw.interval
    ∧ (scanStep c).scanPos = c.scanPos
    ∧ (scanStep c).tw.slots.length = c.tw.slots.length
    ∧ (scanStep c).tw.arena.length = c.tw.arena.length := by
  simp only [scanStep]
  split
  · exact ⟨rfl, rfl, rfl, rfl, rfl, rfl⟩
  split
  · exact ⟨rfl, rfl, rfl, rfl, by simp, rfl⟩
  split
  · exact ⟨rfl, rfl, rfl, rfl, rfl, by simp⟩
  split
  · exact ⟨rfl, rfl, rfl, rfl, by simp, by simp⟩
  · split
    · exact ⟨rfl, rfl, rfl, rfl, by simp, by simp⟩
    · next tw3 heq =>
      obtain ⟨h1, h2, h3, h4, h5⟩ := addTask_preserves heq
      exact ⟨h1.trans rfl, h2.trans rfl, h3.trans rfl, rfl,
        h4.trans (by simp), h5.trans (by simp)⟩

theorem scanRun_preserves (fuel : Nat) (c : ScanState) :
    (scanRun fuel c).tw.currentPos = c.tw.currentPos
    ∧ (scanRun fuel c).tw.slotNum = c.tw.slotNum
    ∧ (scanRun fuel c).tw.interval = c.tw.interval
    ∧ (scanRun fuel c).scanPos = c.scanPos
    ∧ (scanRun fuel c).tw.slots.length = c.tw.slots.length
    ∧ (scanRun fuel c).tw.arena.length = c.tw.arena.length := by
  induction fuel generalizing c with
  | zero => exact ⟨rfl, rfl, rfl, rfl, rfl, rfl⟩
  | succ n ih =>
    have hs := scanStep_preserves c
    have hr := ih (scanStep c)
    simp only [scanRun]
    exact ⟨hr.1.trans hs.1, hr.2.1.trans hs.2.1, hr.2.2.1.trans hs.2.2.1,
      hr.2.2.2.1.trans hs.2.2.2.1, hr.2.2.2.2.1.trans hs.2.2.2.2.1,
      hr.2.2.2.2.2.trans hs.2.2.2.2.2⟩

/-- Elimination form of a successful `tickHandler`: the cursor was a valid
index, the scan ran to completion without panicking, the result wheel is
the scanned wheel with the cursor advanced, and the reported fires are
the scan's fires. -/
theorem tickHandler_some {fuel : Nat} {tw tw' : TimeWheel}
    {fires : List (Nat × Option Nat × Nat)}
    (h : tickHandler fuel tw = some (tw', fires)) :
    ¬ (tw.currentPos < 0 ∨ tw.slots.length ≤ tw.currentPos.toNat)
    ∧ ∃ c, scanRun fuel
        { tw := tw, scanPos := tw.currentPos.toNat, kept := 0,
          fires := [], finished := false, panicked := false } = c
      ∧ c.panicked = false ∧ scanDone c
      ∧ tw' = { c.tw with currentPos :=
          if c.tw.currentPos = c.tw.slotNum - 1 then 0
          else c.tw.currentPos + 1 }
      ∧ fires = c.fires := by
  simp only [tickHandler] at h
  split at h
  · simp at h
  · next hguard =>
    split at h
    · simp at h
    · next hp =>
      split at h
      · next hdone =>
        injection h with h
        refine ⟨hguard, _, rfl, by simpa using hp, hdone, ?_, ?_⟩
        · exact (congrArg Prod.fst h).symm
        · exact (congrArg Prod.snd h).symm
      · simp at h

/-- Claim C3: on a successful tick the control loop scans the slot at the
cursor in order and afterwards advances the cursor by exactly one modulo
`slotNum`; during the scan, a task with `times = 0` is unlinked from the
slot and its key deleted from the record without firing, and a task with
`circle > 0` merely has its `circle` decremented and stays in place. -/
theorem tick_scan_behavior :
    (∀ (tw : TimeWheel) (fuel : Nat) (tw' : TimeWheel)
        (fires : List (Nat × Option Nat × Nat)),
      0 ≤ tw.currentPos → tw.currentPos < tw.slotNum →
      tickHandler fuel tw = some (tw', fires) →
      tw'.currentPos = (tw.currentPos + 1) % tw.slotNum)
    ∧ (∀ c : ScanState, ¬ scanDone c →
        (c.tw.arena.getD ((c.tw.slots.getD c.scanPos []).getD c.kept 0)
          default).times = 0 →
        scanStep c = { c with tw := { c.tw with
          slots := c.tw.slots.set c.scanPos
            ((c.tw.slots.getD c.scanPos []).eraseIdx c.kept)
          taskRecord := recDelete c.tw.taskRecord
            (c.tw.arena.getD ((c.tw.slots.getD c.scanPos []).getD c.kept 0)
              default).key } })
    ∧ (∀ c : ScanState, ¬ scanDone c →
        ¬ (c.tw.arena.getD ((c.tw.slots.getD c.scanPos []).getD c.kept 0)
            default).times = 0 →
        0 < (c.tw.arena.getD ((c.tw.slots.getD c.scanPos []).getD c.kept 0)
            default).circle →
        scanStep c = { c with
          tw := { c.tw with
            arena := c.tw.arena.set ((c.tw.slots.getD c.scanPos []).getD c.kept 0) { (c.tw.arena.getD ((c.tw.slots.getD c.scanPos []).getD c.kept 0) default) with circle := (c.tw.arena.getD ((c.tw.slots.getD c.scanPos []).getD c.kept 0) default).circle - 1 } }
          kept := c.kept + 1 }) := by
  refine ⟨?_, ?_, ?_⟩
  · intro tw fuel tw' fires h0 h1 h
    obtain ⟨hguard, c, hc, hp, hdone, htw', hfires⟩ := tickHandler_some h
    have hpres := scanRun_preserves fuel
      { tw := tw, scanPos := tw.currentPos.toNat, kept := 0,
        fires := [], finished := false, panicked := false }
    rw [hc] at hpres
    subst htw'
    show (if c.tw.currentPos = c.tw.slotNum - 1 then 0
      else c.tw.currentPos + 1) = (tw.currentPos + 1) % tw.slotNum
    rw [hpres.1, hpres.2.1]
    by_cases hcase : tw.currentPos = tw.slotNum - 1
    · rw [if_pos hcase, hcase]
      have he : tw.slotNum - 1 + 1 = tw.slotNum := by ring
      rw [he, Int.emod_self]
    · rw [if_neg hcase, Int.emod_eq_of_lt (by omega) (by omega)]
  · intro c hnd ht0
    simp only [scanStep]
    rw [if_neg hnd, if_pos ht0]
  · intro c hnd ht0 hcirc
    simp only [scanStep]
    rw [if_neg hnd, if_neg ht0, if_pos hcirc]

/-- Witness for `tick_scan_behavior`: a tick on `sampleWheel` advances
the cursor from `0` to `(0 + 1) % 2`; scanning the tombstone
configuration unlinks the dead task without firing; scanning the rotating
configuration decrements its `circle` from `2` to `1` in place. -/
theorem tick_scan_behavior_witness :
    ((tickHandler 4 sampleWheel).getD default).1.currentPos =
      ((0 : Int) + 1) % 2
    ∧ scanStep sampleScanTombstone =
      { sampleScanTombstone with tw := { sampleScanTombstone.tw with
          slots := [[], []]
          taskRecord := [] } }
    ∧ scanStep sampleScanRotating =
      { sampleScanRotating with
        tw := { sampleScanRotating.tw with
          arena := [{ interval := 1000000000, times := 1, circle := 1, key := some 5, job := some 7, taskData := 9 }] }
        kept := 1 } := by
  refine ⟨?_, ?_, ?_⟩
  · exact tick_scan_behavior.1 sampleWheel 4 _ _ (by decide) (by decide) rfl
  · exact (tick_scan_behavior.2.1 sampleScanTombstone (by decide)
      (by decide)).trans (by decide)
  · exact (tick_scan_behavior.2.2 sampleScanRotating (by decide)
      (by decide) (by decide)).trans (by decide)

/-- Observational form of `addTask_spec` for a task inside the arena: the
admitted task's record entry, its end-of-slot position and its recomputed
`circle`. -/
theorem addTask_result_getD (tw : TimeWheel) (tid : Nat)
    (hTID : tid < tw.arena.length)
    (hlen : tw.slots.length = tw.slotNum.toNat)
    (hS : 0 < tw.slotNum)
    (hc : 0 ≤ tw.currentPos)
    (hI : 1 ≤ secs tw.interval)
    (ht : ¬ (tw.arena.getD tid default).times = 0)
    (hd : 0 ≤ (tw.arena.getD tid default).interval) :
    ∃ tw', addTask tw tid = some tw'
    ∧ tw'.arena.getD tid default =
        { tw.arena.getD tid default with
          circle := (delaySteps tw
            (tw.arena.getD tid default).interval).tdiv tw.slotNum }
    ∧ tw'.slots.getD
        (targetPos tw (tw.arena.getD tid default).interval).toNat [] =
      tw.slots.getD
        (targetPos tw (tw.arena.getD tid default).interval).toNat []
        ++ [tid]
    ∧ recLookup tw'.taskRecord (tw.arena.getD tid default).key =
        some tid := by
  obtain ⟨h0, h1, h2⟩ := addTask_spec tw tid hlen hS hc hI ht hd
  have hptoNat :
      (targetPos tw (tw.arena.getD tid default).interval).toNat <
        tw.slots.length := by
    rw [hlen]
    exact (Int.toNat_lt_toNat hS).2 h1
  refine ⟨_, h2, ?_, ?_, ?_⟩
  · exact getD_set_self tw.arena _ _ hTID
  · exact getD_set_self tw.slots _ _ hptoNat
  · exact recLookup_recInsert_self _ _ _

/-- Claim C4: when the scanned task is due (`times ≠ 0`, `circle = 0`),
its job is dispatched with its payload and the element is unlinked from
the slot; if `times = 1` it is set to `0` and the key is deleted from the
record (terminal); if `times = -1` it stays `-1` and if `times > 1` it is
decremented, and in both cases the task is re-admitted through `addTask`,
its slot and rotation count recomputed from its current (possibly
updated) `interval` relative to the current cursor. -/
theorem due_task_fires_and_readmits (c : ScanState) (l : List Nat)
    (tid : Nat) (t : Task)
    (hl : c.tw.slots.getD c.scanPos [] = l)
    (htid : l.getD c.kept 0 = tid)
    (ht : c.tw.arena.getD tid default = t)
    (hnd : ¬ scanDone c)
    (htimes : ¬ t.times = 0)
    (hcirc : t.circle = 0) :
    (scanStep c).fires = c.fires ++ [(tid, t.job, t.taskData)]
    ∧ (t.times = 1 →
        scanStep c = { c with
          tw := { c.tw with
            slots := c.tw.slots.set c.scanPos (l.eraseIdx c.kept)
            arena := c.tw.arena.set tid { t with times := 0 }
            taskRecord := recDelete c.tw.taskRecord t.key }
          fires := c.fires ++ [(tid, t.job, t.taskData)]
          finished := decide (l.length ≤ c.kept + 1) })
    ∧ ((t.times = -1 ∨ 1 < t.times) →
        tid < c.tw.arena.length →
        c.tw.slots.length = c.tw.slotNum.toNat →
        0 < c.tw.slotNum →
        0 ≤ c.tw.currentPos →
        1 ≤ secs c.tw.interval →
        0 ≤ t.interval →
        ∃ tw3, addTask { c.tw with
            slots := c.tw.slots.set c.scanPos (l.eraseIdx c.kept)
            arena := c.tw.arena.set tid
              (if 0 < t.times then { t with times := t.times - 1 } else t) }
          tid = some tw3
          ∧ scanStep c = { c with
              tw := tw3
              fires := c.fires ++ [(tid, t.job, t.taskData)]
              finished := decide (l.length ≤ c.kept + 1) }
          ∧ (tw3.arena.getD tid default).times =
              (if t.times = -1 then -1 else t.times - 1)
          ∧ (tw3.arena.getD tid default).circle =
              (delaySteps c.tw t.interval).tdiv c.tw.slotNum
          ∧ tw3.slots.getD (targetPos c.tw t.interval).toNat [] =
              (c.tw.slots.set c.scanPos (l.eraseIdx c.kept)).getD
                (targetPos c.tw t.interval).toNat [] ++ [tid]
          ∧ recLookup tw3.taskRecord t.key = some tid) := by
  have hncirc : ¬ 0 < t.circle := by omega
  refine ⟨?_, ?_, ?_⟩
  · by_cases h1 : t.times = 1
    · simp only [scanStep]
      rw [hl, htid, ht, if_neg hnd, if_neg htimes, if_neg hncirc, if_pos h1]
    · simp only [scanStep]
      rw [hl, htid, ht, if_neg hnd, if_neg htimes, if_neg hncirc, if_neg h1]
      split <;> rfl
  · intro h1
    simp only [scanStep]
    rw [hl, htid, ht, if_neg hnd, if_neg htimes, if_neg hncirc, if_pos h1]
  · intro hrep hTID hslen hS hcpos hI hd
    have h1 : ¬ t.times = 1 := by rcases hrep with h | h <;> omega
    have hT'int : (if 0 < t.times then
        { t with times := t.times - 1 } else t).interval = t.interval := by
      split <;> rfl
    have hT'key : (if 0 < t.times then
        { t with times := t.times - 1 } else t).key = t.key := by
      split <;> rfl
    have hT'ne : ¬ (if 0 < t.times then
        { t with times := t.times - 1 } else t).times = 0 := by
      rcases hrep with h | h
      · rw [if_neg (by omega)]
        omega
      · rw [if_pos (by omega)]
        show ¬ t.times - 1 = 0
        omega
    have hstep : scanStep c = (match addTask { c.tw with
          slots := c.tw.slots.set c.scanPos (l.eraseIdx c.kept)
          arena := c.tw.arena.set tid
            (if 0 < t.times then { t with times := t.times - 1 } else t) }
          tid with
        | none => { c with
            tw := { c.tw with
              slots := c.tw.slots.set c.scanPos (l.eraseIdx c.kept)
              arena := c.tw.arena.set tid
                (if 0 < t.times then { t with times := t.times - 1 }
                 else t) }
            fires := c.fires ++ [(tid, t.job, t.taskData)]
            panicked := true }
        | some tw3 => { c with
            tw := tw3
            fires := c.fires ++ [(tid, t.job, t.taskData)]
            finished := decide (l.length ≤ c.kept + 1) }) := by
      simp only [scanStep]
      rw [hl, htid, ht, if_neg hnd, if_neg htimes, if_neg hncirc, if_neg h1]
    have hT'' : (c.tw.arena.set tid
        (if 0 < t.times then { t with times := t.times - 1 }
         else t)).getD tid default =
        (if 0 < t.times then { t with times := t.times - 1 } else t) :=
      getD_set_self _ _ _ hTID
    obtain ⟨tw3, heq2, hgt, hgs, hgr⟩ := addTask_result_getD
      { c.tw with
        slots := c.tw.slots.set c.scanPos (l.eraseIdx c.kept)
        arena := c.tw.arena.set tid
          (if 0 < t.times then { t with times := t.times - 1 } else t) }
      tid
      (by simpa using hTID)
      (by simpa using hslen)
      hS hcpos hI
      (by dsimp only
          rw [hT'']
          exact hT'ne)
      (by dsimp only
          rw [hT'', hT'int]
          exact hd)
    dsimp only at hgt hgs hgr
    rw [hT''] at hgt hgs hgr
    rw [hT'int] at hgt hgs
    rw [hT'key] at hgr
    refine ⟨tw3, heq2, ?_, ?_, ?_, ?_, ?_⟩
    · rw [hstep, heq2]
    · rw [hgt]
      show (if 0 < t.times then { t with times := t.times - 1 }
        else t).times = _
      rcases hrep with h | h
      · rw [if_neg (by omega), if_pos h]
        exact h
      · rw [if_pos (by omega), if_neg (by omega)]
    · rw [hgt]
      rfl
    · exact hgs
    · exact hgr

/-- Witness for `due_task_fires_and_readmits` on `sampleScanDue`
(`times = 3`, `circle = 0`, delay 1 s on a 1 s wheel with 2 slots at
cursor 0): the job fires with its payload, `times` drops to `2`, and the
task is re-admitted at the end of slot `(0 + 1) tmod 2 = 1` with
`circle = 0`, still registered under its key. -/
theorem due_task_fires_and_readmits_witness :
    (scanStep sampleScanDue).fires = [(0, some 7, 9)]
    ∧ ∃ tw3, scanStep sampleScanDue = { sampleScanDue with
        tw := tw3
        fires := [(0, some 7, 9)]
        finished := true }
      ∧ (tw3.arena.getD 0 default).times = 2
      ∧ (tw3.arena.getD 0 default).circle = 0
      ∧ tw3.slots.getD 1 [] = [0]
      ∧ recLookup tw3.taskRecord (some 5) = some 0 := by
  obtain ⟨hf, _, hre⟩ := due_task_fires_and_readmits sampleScanDue [0] 0
    { interval := 1000000000, times := 3, circle := 0,
      key := some 5, job := some 7, taskData := 9 }
    rfl rfl rfl (by decide) (by decide) (by decide)
  obtain ⟨tw3, _, heq, ht3, hc3, hs3, hr3⟩ :=
    hre (Or.inr (by decide)) (by decide) (by decide) (by decide) (by decide)
      (by decide) (by decide)
  exact ⟨hf, tw3, heq, ht3, hc3, hs3, hr3⟩

theorem take_eraseIdx_self (l : List Nat) (k : Nat) (h : k < l.length) :
    (l.eraseIdx k).take k = l.take k := by
  rw [List.eraseIdx_eq_take_drop_succ,
    List.take_append_of_le_length (by simp [List.length_take]; omega),
    List.take_take]
  simp

theorem drop_eraseIdx_self (l : List Nat) (k : Nat) (h : k < l.length) :
    (l.eraseIdx k).drop k = l.drop (k + 1) := by
  rw [List.eraseIdx_eq_take_drop_succ,
    List.drop_append_of_le_length (by simp [List.length_take]; omega)]
  rw [List.drop_eq_nil_of_le (by simp [List.length_take])]
  rfl

/-- A configuration whose scan loop has not terminated has a valid slot
index, an unfinished and unpanicked flag pair, and an in-range item
index. -/
theorem not_done_facts {c : ScanState} (hnd : ¬ scanDone c) :
    c.finished = false ∧ c.panicked = false
    ∧ c.kept < (c.tw.slots.getD c.scanPos []).length
    ∧ c.scanPos < c.tw.slots.length := by
  unfold scanDone at hnd
  push_neg at hnd
  obtain ⟨h1, h2, h3⟩ := hnd
  refine ⟨by simpa using h1, by simpa using h2, by omega, ?_⟩
  by_contra hh
  have he : c.tw.slots.getD c.scanPos [] = [] := by
    rw [List.getD_eq_getElem?_getD, List.getElem?_eq_none (by omega)]
    rfl
  rw [he] at h3
  simp at h3

/-- A successful `addTask` either dropped a tombstone (no change) or
appended the task to one slot, updated its `circle` and re-registered
it. -/
theorem addTask_cases {tw tw' : TimeWheel} {tid : Nat}
    (h : addTask tw tid = some tw') :
    tw' = tw ∨ ∃ pc : Int × Int,
      ¬ (pc.1 < 0 ∨ tw.slots.length ≤ pc.1.toNat)
      ∧ tw' = { tw with
          arena := tw.arena.set tid
            { tw.arena.getD tid default with circle := pc.2 }
          slots := tw.slots.set pc.1.toNat
            (tw.slots.getD pc.1.toNat [] ++ [tid])
          taskRecord := recInsert tw.taskRecord
            (tw.arena.getD tid default).key tid } := by
  simp only [addTask] at h
  split at h
  · injection h with h
    exact Or.inl h.symm
  · split at h
    · simp at h
    · next pc heq =>
      split at h
      · simp at h
      · next hguard =>
        injection h with h
        exact Or.inr ⟨pc, hguard, h.symm⟩

/-- Preservation of the tombstone invariant by one scan step: if the task
at arena index `tid` is dead (`times = 0`), has not fired, and does not
occur in the already-kept prefix of the scanned slot (nor, when the loop
has stopped, in its remainder), the same holds after the step. -/
theorem scanStep_dead_inv (tid : Nat) (c : ScanState) (l : List Nat)
    (tid' : Nat) (t : Task)
    (hl : c.tw.slots.getD c.scanPos [] = l)
    (htid' : l.getD c.kept 0 = tid')
    (ht' : c.tw.arena.getD tid' default = t)
    (h0 : timesOf c.tw tid = 0)
    (hf : ∀ e ∈ c.fires, e.1 ≠ tid)
    (htake : tid ∉ (c.tw.slots.getD c.scanPos []).take c.kept)
    (hfin : c.finished = true →
      tid ∉ (c.tw.slots.getD c.scanPos []).drop c.kept) :
    timesOf (scanStep c).tw tid = 0
    ∧ (∀ e ∈ (scanStep c).fires, e.1 ≠ tid)
    ∧ tid ∉ ((scanStep c).tw.slots.getD c.scanPos []).take (scanStep c).kept
    ∧ ((scanStep c).finished = true →
        tid ∉ ((scanStep c).tw.slots.getD c.scanPos []).drop
          (scanStep c).kept) := by
  by_cases hnd : scanDone c
  · have he : scanStep c = c := by
      simp only [scanStep]
      rw [if_pos hnd]
    rw [he]
    exact ⟨h0, hf, htake, hfin⟩
  obtain ⟨hfin0, hpan0, hkl0, hsp0⟩ := not_done_facts hnd
  rw [hl] at hkl0 htake
  have hkl : c.kept < l.length := hkl0
  have hsp : c.scanPos < c.tw.slots.length := hsp0
  have hsome : l[c.kept]? = some tid' := by
    rw [List.getElem?_eq_getElem hkl]
    rw [List.getD_eq_getElem?_getD, List.getElem?_eq_getElem hkl] at htid'
    exact congrArg some htid'
  by_cases h00 : t.times = 0
  · -- tombstone branch: the element (possibly `tid` itself) is unlinked
    have he : scanStep c = { c with tw := { c.tw with
        slots := c.tw.slots.set c.scanPos (l.eraseIdx c.kept)
        taskRecord := recDelete c.tw.taskRecord t.key } } := by
      simp only [scanStep]
      rw [hl, htid', ht', if_neg hnd, if_pos h00]
    rw [he]
    refine ⟨h0, hf, ?_, ?_⟩
    · show tid ∉ ((c.tw.slots.set c.scanPos
        (l.eraseIdx c.kept)).getD c.scanPos []).take c.kept
      rw [getD_set_self _ _ _ hsp, take_eraseIdx_self _ _ hkl]
      exact htake
    · intro hcontr
      simp only [hfin0] at hcontr
      cases hcontr
  have hne : ¬ tid' = tid := by
    intro hh
    apply h00
    rw [← ht', hh]
    exact h0
  by_cases hcir : 0 < t.circle
  · -- waiting branch: `circle` decremented, task left in place
    have he : scanStep c = { c with
        tw := { c.tw with
          arena := c.tw.arena.set tid' { t with circle := t.circle - 1 } }
        kept := c.kept + 1 } := by
      simp only [scanStep]
      rw [hl, htid', ht', if_neg hnd, if_neg h00, if_pos hcir]
    rw [he]
    refine ⟨?_, hf, ?_, ?_⟩
    · show ((c.tw.arena.set tid' _).getD tid default).times = 0
      rw [getD_set_ne _ _ _ hne]
      exact h0
    · show tid ∉ (c.tw.slots.getD c.scanPos []).take (c.kept + 1)
      rw [hl, List.take_succ, hsome]
      intro hmem
      rcases List.mem_append.1 hmem with hm | hm
      · exact htake hm
      · simp at hm
        exact hne hm.symm
    · intro hcontr
      simp only [hfin0] at hcontr
      cases hcontr
  by_cases h11 : t.times = 1
  · -- terminal firing: unlink, `times := 0`, delete from the record
    have he : scanStep c = { c with
        tw := { c.tw with
          slots := c.tw.slots.set c.scanPos (l.eraseIdx c.kept)
          arena := c.tw.arena.set tid' { t with times := 0 }
          taskRecord := recDelete c.tw.taskRecord t.key }
        fires := c.fires ++ [(tid', t.job, t.taskData)]
        finished := decide (l.length ≤ c.kept + 1) } := by
      simp only [scanStep]
      rw [hl, htid', ht', if_neg hnd, if_neg h00, if_neg hcir, if_pos h11]
    rw [he]
    refine ⟨?_, ?_, ?_, ?_⟩
    · show ((c.tw.arena.set tid' _).getD tid default).times = 0
      rw [getD_set_ne _ _ _ hne]
      exact h0
    · intro e hmem
      rcases List.mem_append.1 hmem with hm | hm
      · exact hf e hm
      · simp at hm
        rw [hm]
        exact hne
    · show tid ∉ ((c.tw.slots.set c.scanPos
        (l.eraseIdx c.kept)).getD c.scanPos []).take c.kept
      rw [getD_set_self _ _ _ hsp, take_eraseIdx_self _ _ hkl]
      exact htake
    · intro hcontr
      have hlast : l.length ≤ c.kept + 1 := of_decide_eq_true hcontr
      show tid ∉ ((c.tw.slots.set c.scanPos
        (l.eraseIdx c.kept)).getD c.scanPos []).drop c.kept
      rw [getD_set_self _ _ _ hsp, drop_eraseIdx_self _ _ hkl,
        List.drop_eq_nil_of_le (by omega)]
      simp
  · -- repeat firing: unlink, decrement, re-admit through `addTask`
    have he : scanStep c = (match addTask { c.tw with
          slots := c.tw.slots.set c.scanPos (l.eraseIdx c.kept)
          arena := c.tw.arena.set tid'
            (if 0 < t.times then { t with times := t.times - 1 } else t) }
          tid' with
        | none => { c with
            tw := { c.tw with
              slots := c.tw.slots.set c.scanPos (l.eraseIdx c.kept)
              arena := c.tw.arena.set tid'
                (if 0 < t.times then { t with times := t.times - 1 }
                 else t) }
            fires := c.fires ++ [(tid', t.job, t.taskData)]
            panicked := true }
        | some tw3 => { c with
            tw := tw3
            fires := c.fires ++ [(tid', t.job, t.taskData)]
            finished := decide (l.length ≤ c.kept + 1) }) := by
      simp only [scanStep]
      rw [hl, htid', ht', if_neg hnd, if_neg h00, if_neg hcir, if_neg h11]
    rw [he]
    have hfires : ∀ e ∈ c.fires ++ [(tid', t.job, t.taskData)],
        e.1 ≠ tid := by
      intro e hmem
      rcases List.mem_append.1 hmem with hm | hm
      · exact hf e hm
      · simp at hm
        rw [hm]
        exact hne
    have htimes2 : ((c.tw.arena.set tid'
        (if 0 < t.times then { t with times := t.times - 1 }
         else t)).getD tid default).times = 0 := by
      rw [getD_set_ne _ _ _ hne]
      exact h0
    have htake2 : tid ∉ ((c.tw.slots.set c.scanPos
        (l.eraseIdx c.kept)).getD c.scanPos []).take c.kept := by
      rw [getD_set_self _ _ _ hsp, take_eraseIdx_self _ _ hkl]
      exact htake
    cases haddeq : addTask { c.tw with
        slots := c.tw.slots.set c.scanPos (l.eraseIdx c.kept)
        arena := c.tw.arena.set tid'
          (if 0 < t.times then { t with times := t.times - 1 } else t) }
        tid' with
    | none =>
      refine ⟨htimes2, hfires, htake2, ?_⟩
      intro hcontr
      simp only [hfin0] at hcontr
      cases hcontr
    | some tw3 =>
      rcases addTask_cases haddeq with hsame | ⟨pc, hg, hexp⟩
      · subst hsame
        refine ⟨htimes2, hfires, htake2, ?_⟩
        intro hcontr
        have hlast : l.length ≤ c.kept + 1 := of_decide_eq_true hcontr
        show tid ∉ ((c.tw.slots.set c.scanPos
          (l.eraseIdx c.kept)).getD c.scanPos []).drop c.kept
        rw [getD_set_self _ _ _ hsp, drop_eraseIdx_self _ _ hkl,
          List.drop_eq_nil_of_le (by omega)]
        simp
      · subst hexp
        dsimp only at hg ⊢
        have herase : c.kept ≤ (l.eraseIdx c.kept).length := by
          rw [List.length_eraseIdx]
          simp [hkl]
          omega
        have hset : c.scanPos < (c.tw.slots.set c.scanPos
            (l.eraseIdx c.kept)).length := by
          simpa using hsp
        refine ⟨?_, hfires, ?_, ?_⟩
        · show ((((c.tw.arena.set tid' _).set tid' _)).getD tid
            default).times = 0
          rw [getD_set_ne _ _ _ hne, getD_set_ne _ _ _ hne]
          exact h0
        · by_cases hpos : pc.1.toNat = c.scanPos
          · show tid ∉ (((c.tw.slots.set c.scanPos
              (l.eraseIdx c.kept)).set pc.1.toNat
              ((c.tw.slots.set c.scanPos (l.eraseIdx c.kept)).getD
                pc.1.toNat [] ++ [tid'])).getD c.scanPos []).take c.kept
            rw [hpos, getD_set_self _ _ _ hset, getD_set_self _ _ _ hsp,
              List.take_append_of_le_length herase,
              take_eraseIdx_self _ _ hkl]
            exact htake
          · show tid ∉ (((c.tw.slots.set c.scanPos
              (l.eraseIdx c.kept)).set pc.1.toNat _).getD
                c.scanPos []).take c.kept
            rw [getD_set_ne _ _ _ hpos]
            exact htake2
        · intro hcontr
          have hlast : l.length ≤ c.kept + 1 := of_decide_eq_true hcontr
          have hdropnil : (l.eraseIdx c.kept).drop c.kept = [] := by
            rw [drop_eraseIdx_self _ _ hkl]
            exact List.drop_eq_nil_of_le (by omega)
          by_cases hpos : pc.1.toNat = c.scanPos
          · show tid ∉ (((c.tw.slots.set c.scanPos
              (l.eraseIdx c.kept)).set pc.1.toNat
              ((c.tw.slots.set c.scanPos (l.eraseIdx c.kept)).getD
                pc.1.toNat [] ++ [tid'])).getD c.scanPos []).drop c.kept
            rw [hpos, getD_set_self _ _ _ hset, getD_set_self _ _ _ hsp,
              List.drop_append_of_le_length herase, hdropnil]
            intro hmem
            simp at hmem
            exact hne hmem.symm
          · show tid ∉ (((c.tw.slots.set c.scanPos
              (l.eraseIdx c.kept)).set pc.1.toNat _).getD
                c.scanPos []).drop c.kept
            rw [getD_set_ne _ _ _ hpos, getD_set_self _ _ _ hsp, hdropnil]
            simp

theorem scanRun_dead_inv (tid : Nat) (fuel : Nat) (c : ScanState)
    (h0 : timesOf c.tw tid = 0)
    (hf : ∀ e ∈ c.fires, e.1 ≠ tid)
    (htake : tid ∉ (c.tw.slots.getD c.scanPos []).take c.kept)
    (hfin : c.finished = true →
      tid ∉ (c.tw.slots.getD c.scanPos []).drop c.kept) :
    timesOf (scanRun fuel c).tw tid = 0
    ∧ (∀ e ∈ (scanRun fuel c).fires, e.1 ≠ tid)
    ∧ tid ∉ ((scanRun fuel c).tw.slots.getD c.scanPos []).take
        (scanRun fuel c).kept
    ∧ ((scanRun fuel c).finished = true →
        tid ∉ ((scanRun fuel c).tw.slots.getD c.scanPos []).drop
          (scanRun fuel c).kept) := by
  induction fuel generalizing c with
  | zero => exact ⟨h0, hf, htake, hfin⟩
  | succ n ih =>
    obtain ⟨a, b, d, e⟩ :=
      scanStep_dead_inv tid c _ _ _ rfl rfl rfl h0 hf htake hfin
    have hsp := (scanStep_preserves c).2.2.2.1
    rw [← hsp] at d e
    have hres := ih (scanStep c) a b d e
    rw [hsp] at hres
    simpa only [scanRun] using hres

theorem tickHandler_dead (tid fuel : Nat) (tw tw' : TimeWheel)
    (fires : List (Nat × Option Nat × Nat))
    (h0 : timesOf tw tid = 0)
    (h : tickHandler fuel tw = some (tw', fires)) :
    timesOf tw' tid = 0 ∧ (∀ e ∈ fires, e.1 ≠ tid)
    ∧ tid ∉ tw'.slots.getD tw.currentPos.toNat [] := by
  obtain ⟨hguard, cres, hc, hp, hdone, htw', hfires⟩ := tickHandler_some h
  obtain ⟨a, b, d, e⟩ := scanRun_dead_inv tid fuel
    { tw := tw, scanPos := tw.currentPos.toNat, kept := 0,
      fires := [], finished := false, panicked := false }
    h0 (by simp) (by simp) (by intro hh; cases hh)
  rw [hc] at a b d e
  have hscan := (scanRun_preserves fuel
    { tw := tw, scanPos := tw.currentPos.toNat, kept := 0,
      fires := [], finished := false, panicked := false }).2.2.2.1
  rw [hc] at hscan
  dsimp only at hscan d e
  subst htw'
  subst hfires
  refine ⟨a, b, ?_⟩
  intro hmem
  dsimp only at hmem
  unfold scanDone at hdone
  rw [hscan] at hdone
  rcases hdone with hfin1 | hpan1 | hlen1
  · rw [← List.take_append_drop cres.kept
      (cres.tw.slots.getD tw.currentPos.toNat [])] at hmem
    rcases List.mem_append.1 hmem with hm | hm
    · exact d hm
    · exact (e hfin1) hm
  · rw [hpan1] at hp
    cases hp
  · apply d
    rw [List.take_of_length_le hlen1]
    exact hmem

theorem runTicks_dead (tid : Nat) : ∀ (n fuel : Nat) (tw : TimeWheel)
    (out : TimeWheel × List (Nat × Option Nat × Nat)),
    timesOf tw tid = 0 → runTicks n fuel tw = some out →
    timesOf out.1 tid = 0 ∧ ∀ e ∈ out.2, e.1 ≠ tid := by
  intro n
  induction n with
  | zero =>
    intro fuel tw out h0 h
    simp only [runTicks] at h
    injection h with h
    subst h
    exact ⟨h0, by simp⟩
  | succ m ih =>
    intro fuel tw out h0 h
    simp only [runTicks] at h
    split at h
    · simp at h
    · next p hp =>
      split at h
      · simp at h
      · next q hq =>
        injection h with h
        subst h
        obtain ⟨a, b, _⟩ := tickHandler_dead tid fuel tw p.1 p.2 h0 hp
        obtain ⟨a2, b2⟩ := ih fuel p.1 q a hq
        refine ⟨a2, ?_⟩
        intro e hmem
        rcases List.mem_append.1 hmem with hm | hm
        · exact b e hm
        · exact b2 e hm

/-- Claim C5: after a successful `RemoveTask` of key `k` (found at arena
index `tid`), the removed task's callback is never dispatched by any
number of subsequent ticks, and whenever a subsequent tick completes its
scan, the scanned slot no longer physically contains the tombstoned
entry — it was purged without firing. -/
theorem removed_task_never_fires (tw : TimeWheel) (k tid : Nat)
    (hlook : recLookup tw.taskRecord (some k) = some tid) :
    (RemoveTask tw (some k)).2 = none
    ∧ (∀ n fuel out,
        runTicks n fuel (RemoveTask tw (some k)).1 = some out →
        ∀ e ∈ out.2, e.1 ≠ tid)
    ∧ (∀ n fuel mid,
        runTicks n fuel (RemoveTask tw (some k)).1 = some mid →
        ∀ fuel2 out, tickHandler fuel2 mid.1 = some out →
          tid ∉ out.1.slots.getD mid.1.currentPos.toNat []) := by
  have he : RemoveTask tw (some k) = ({ tw with
      arena := tw.arena.set tid
        { tw.arena.getD tid default with times := 0 }
      taskRecord := recDelete tw.taskRecord
        (tw.arena.getD tid default).key }, none) := by
    unfold RemoveTask
    simp [hlook]
  have h0 : timesOf (RemoveTask tw (some k)).1 tid = 0 := by
    rw [he]
    exact times_getD_set_times_zero _ _ _
  refine ⟨by rw [he], ?_, ?_⟩
  · intro n fuel out h
    exact (runTicks_dead tid n fuel _ out h0 h).2
  · intro n fuel mid h fuel2 out h2
    have hmid := (runTicks_dead tid n fuel _ mid h0 h).1
    exact (tickHandler_dead tid fuel2 mid.1 out.1 out.2 hmid h2).2.2

/-- Witness for `removed_task_never_fires` on `sampleWheel`: after
removing key `5` (arena index `0`), no run of ticks ever fires task `0`,
and each completed tick leaves the scanned slot free of it; the first two
ticks do complete. -/
theorem removed_task_never_fires_witness :
    (RemoveTask sampleWheel (some 5)).2 = none
    ∧ (∀ n fuel out,
        runTicks n fuel (RemoveTask sampleWheel (some 5)).1 = some out →
        ∀ e ∈ out.2, e.1 ≠ 0)
    ∧ (∀ n fuel mid,
        runTicks n fuel (RemoveTask sampleWheel (some 5)).1 = some mid →
        ∀ fuel2 out, tickHandler fuel2 mid.1 = some out →
          0 ∉ out.1.slots.getD mid.1.currentPos.toNat [])
    ∧ (runTicks 2 4 (RemoveTask sampleWheel (some 5)).1).isSome = true := by
  obtain ⟨h1, h2, h3⟩ := removed_task_never_fires sampleWheel 5 0 rfl
  exact ⟨h1, h2, h3, by decide⟩

end Timewheel
